import Mathlib

/-!
Shallow embedding of the transaction engine (accounts.rs, transactions.rs,
engine.rs, behaviors.rs) and proofs about its transaction state machine.

Rust methods taking `&mut self` are embedded as state-passing functions: an
operation on an `Account` returns the post-call account together with
`Option Error` (`none` = `Ok(())`, `some e` = `Err(e)`); because Rust mutates
in place, the account returned in the error case is the state at the point of
the early return, which may include partial mutation.
-/

namespace TxEngine

/-- Client identifier (u16 in the source; the width is irrelevant here). -/
abbrev Client := Nat

/-- Transaction identifier (u32 in the source; the width is irrelevant here). -/
abbrev Tx := Nat

/-- Modelled from the spec: src/primitives.rs (defining `Client`, `Tx` and
`Funds`) is not under src/. Per the spec, `Funds` is a fixed-precision decimal
quantity with exact comparison, a distinguished zero, and checked
(overflow/underflow-detecting) add/sub that never round or wrap. We model a
monetary value as an exact integer count of the smallest representable
currency fraction, and the checked operations as exact arithmetic guarded by
the symmetric range bound of the 96-bit decimal mantissa the spec's budget
points at. -/
abbrev Funds := ℤ

namespace Funds

/-- Largest representable magnitude of the monetary type:
the 96-bit mantissa bound 2 ^ 96 - 1, written as a literal so that concrete
comparisons evaluate. -/
def MAX : ℤ := 79228162514264337593543950335

/-- The distinguished zero of the monetary type (`Funds::ZERO`). -/
def ZERO : Funds := 0

/-- Checked addition: the exact sum when it is representable, else `none`. -/
def checked_add (a b : Funds) : Option Funds :=
  if -MAX ≤ a + b ∧ a + b ≤ MAX then some (a + b) else none

/-- Checked subtraction: the exact difference when representable, else `none`. -/
def checked_sub (a b : Funds) : Option Funds :=
  if -MAX ≤ a - b ∧ a - b ≤ MAX then some (a - b) else none

end Funds

/-- Embeds `AccountError` from error.rs. -/
inductive AccountError where
  | InsufficientFunds (client : Client)
  | AccountLocked (client : Client)
  | Overflow (client : Client)
  | Underflow (client : Client)
deriving DecidableEq

/-- Embeds `TransactionError` from error.rs. -/
inductive TransactionError where
  | MissingAmount (tx : Tx)
  | AmountPresent (tx : Tx)
  | NonPositiveAmount (tx : Tx)
  | DuplicateFound (tx : Tx)
  | ExistingDispute (tx : Tx)
  | MissingDispute (tx : Tx)
  | OnlyDepositsCanBeDisputed (tx : Tx)
  | WrongClient (tx : Tx) (original found : Client)
deriving DecidableEq

/-- Embeds the `Error` enum from error.rs (the `Io` and `Csv` boundary
variants play no role in the state machine and are omitted). -/
inductive Error where
  | Account (e : AccountError)
  | Transaction (e : TransactionError)
deriving DecidableEq

/-- Association-list model of `HashMap` lookup (`HashMap::get`). -/
def alookup {α : Type} : List (Nat × α) → Nat → Option α
  | [], _ => none
  | (k, v) :: rest, key => if k = key then some v else alookup rest key

/-- Association-list model of `HashMap::contains_key`. -/
def acontains {α : Type} (m : List (Nat × α)) (k : Nat) : Bool :=
  (alookup m k).isSome

/-- Association-list model of `HashMap::remove` (drops every binding of the key). -/
def aerase {α : Type} : List (Nat × α) → Nat → List (Nat × α)
  | [], _ => []
  | (k, v) :: rest, key =>
    if k = key then aerase rest key else (k, v) :: aerase rest key

/-- Association-list model of `HashMap::insert` (the new binding replaces any
previous binding of the key). -/
def ainsert {α : Type} (m : List (Nat × α)) (k : Nat) (v : α) : List (Nat × α) :=
  (k, v) :: aerase m k

/-- Embeds the `Account` struct from accounts.rs; `disputed_transactions` is
the per-account open-dispute map. -/
structure Account where
  client : Client
  available : Funds
  held : Funds
  total : Funds
  locked : Bool
  disputed_transactions : List (Tx × Funds)
deriving DecidableEq

namespace Account

/-- Embeds `Account::new`. -/
def new (client : Client) : Account :=
  { client := client
    available := Funds.ZERO
    held := Funds.ZERO
    total := Funds.ZERO
    locked := false
    disputed_transactions := [] }

/-- Embeds `Account::get_disputed`. -/
def get_disputed (a : Account) (tx : Tx) : Except Error Funds :=
  match alookup a.disputed_transactions tx with
  | some f => .ok f
  | none => .error (.Transaction (.MissingDispute tx))

/-- Embeds `Account::update_total`: recompute `total` as the checked sum of
`available` and `held`. -/
def update_total (a : Account) : Except AccountError Account :=
  match Funds.checked_add a.available a.held with
  | some value => .ok { a with total := value }
  | none => .error (.Overflow a.client)

/-- Embeds `Account::credit`. -/
def credit (a : Account) (funds : Funds) : Account × Option Error :=
  if a.locked then (a, some (.Account (.AccountLocked a.client)))
  else
    match Funds.checked_add a.available funds with
    | some value =>
      let a1 := { a with available := value }
      match a1.update_total with
      | .ok a2 => (a2, none)
      | .error e => (a1, some (.Account e))
    | none => (a, some (.Account (.Overflow a.client)))

/-- Embeds `Account::debit`. -/
def debit (a : Account) (funds : Funds) : Account × Option Error :=
  if a.locked then (a, some (.Account (.AccountLocked a.client)))
  else if a.available < funds then
    (a, some (.Account (.InsufficientFunds a.client)))
  else
    match Funds.checked_sub a.available funds with
    | some value =>
      let a1 := { a with available := value }
      match a1.update_total with
      | .ok a2 => (a2, none)
      | .error e => (a1, some (.Account e))
    | none => (a, some (.Account (.Underflow a.client)))

/-- Embeds `Account::dispute`. -/
def dispute (a : Account) (funds : Funds) (tx : Tx) : Account × Option Error :=
  if a.locked then (a, some (.Account (.AccountLocked a.client)))
  else if acontains a.disputed_transactions tx then
    (a, some (.Transaction (.ExistingDispute tx)))
  else if a.available < funds then
    (a, some (.Account (.InsufficientFunds a.client)))
  else
    match Funds.checked_sub a.available funds with
    | none => (a, some (.Account (.Underflow a.client)))
    | some av =>
      let a1 := { a with available := av }
      match Funds.checked_add a1.held funds with
      | none => (a1, some (.Account (.Overflow a.client)))
      | some h =>
        let a2 := { a1 with
          held := h
          disputed_transactions := ainsert a1.disputed_transactions tx funds }
        match a2.update_total with
        | .ok a3 => (a3, none)
        | .error e => (a2, some (.Account e))

/-- Embeds `Account::resolve` (note: the dispute is untracked only after
`update_total` succeeded, as in the source). -/
def resolve (a : Account) (tx : Tx) : Account × Option Error :=
  if a.locked then (a, some (.Account (.AccountLocked a.client)))
  else
    match alookup a.disputed_transactions tx with
    | none => (a, some (.Transaction (.MissingDispute tx)))
    | some amount =>
      match Funds.checked_sub a.held amount with
      | none => (a, some (.Account (.Underflow a.client)))
      | some h =>
        let a1 := { a with held := h }
        match Funds.checked_add a1.available amount with
        | none => (a1, some (.Account (.Overflow a.client)))
        | some av =>
          let a2 := { a1 with available := av }
          match a2.update_total with
          | .error e => (a2, some (.Account e))
          | .ok a3 =>
            ({ a3 with
                disputed_transactions := aerase a3.disputed_transactions tx },
              none)

/-- Embeds `Account::chargeback`: no lock gate, no `update_total` call. -/
def chargeback (a : Account) (tx : Tx) : Account × Option Error :=
  match alookup a.disputed_transactions tx with
  | none => (a, some (.Transaction (.MissingDispute tx)))
  | some amount =>
    match Funds.checked_sub a.held amount with
    | none => (a, some (.Account (.Underflow a.client)))
    | some h =>
      ({ a with
          held := h
          locked := true
          disputed_transactions := aerase a.disputed_transactions tx },
        none)

end Account

/-- Embeds the `TxType` enum from transactions.rs. -/
inductive TxType where
  | Deposit
  | Withdrawal
  | Dispute
  | Resolve
  | Chargeback
deriving DecidableEq

/-- Embeds the `Transaction` struct from transactions.rs. -/
structure Transaction where
  variant : TxType
  client : Client
  tx : Tx
  amount : Option Funds
deriving DecidableEq

/-- Embeds `Transaction::is_valid`. -/
def Transaction.is_valid (t : Transaction) : Except TransactionError Unit :=
  if (t.variant = .Deposit ∨ t.variant = .Withdrawal) ∧ t.amount = none then
    .error (.MissingAmount t.tx)
  else if (t.variant = .Dispute ∨ t.variant = .Resolve ∨ t.variant = .Chargeback)
      ∧ t.amount ≠ none then
    .error (.AmountPresent t.tx)
  else
    match t.amount with
    | some value =>
      if value ≤ Funds.ZERO then .error (.NonPositiveAmount t.tx) else .ok ()
    | none => .ok ()

/-- Embeds the `Engine` struct from engine.rs: the ledger of recorded
transactions, keyed by tx-id. -/
structure Engine where
  ledger : List (Tx × Transaction)
deriving DecidableEq

/-- Outcome of a call to `Engine::process`. `ok`/`err` carry the post-call
engine and account (on `err` the account holds whatever the Rust code had
mutated in place before the early return); `panicked` models a Rust panic
(an `unwrap` of a `None` amount), which aborts the whole program. -/
inductive PResult where
  | panicked
  | err (e : Error) (engine : Engine) (account : Account)
  | ok (engine : Engine) (account : Account)
deriving DecidableEq

namespace Engine

/-- Embeds `Engine::new`. -/
def new : Engine := { ledger := [] }

/-- Embeds `Engine::get_transaction`: ledger lookup, failing with
`MissingDispute` when the tx-id is not recorded. -/
def get_transaction (eng : Engine) (tx : Tx) : Except Error Transaction :=
  match alookup eng.ledger tx with
  | some t => .ok t
  | none => .error (.Transaction (.MissingDispute tx))

/-- Embeds `Engine::process_deposit`: `unwrap` of the amount (panic when
absent), `Account::credit`, and on success the ledger records the deposit. -/
def process_deposit (eng : Engine) (account : Account) (t : Transaction) :
    PResult :=
  match t.amount with
  | none => .panicked
  | some funds =>
    match account.credit funds with
    | (a1, some e) => .err e eng a1
    | (a1, none) => .ok { eng with ledger := ainsert eng.ledger t.tx t } a1

/-- Embeds `Engine::process_withdrawal`. -/
def process_withdrawal (eng : Engine) (account : Account) (t : Transaction) :
    PResult :=
  match t.amount with
  | none => .panicked
  | some funds =>
    match account.debit funds with
    | (a1, some e) => .err e eng a1
    | (a1, none) => .ok { eng with ledger := ainsert eng.ledger t.tx t } a1

/-- Embeds `Engine::process_dispute`: ledger lookup, the (inverted) deposit
check, the client check, then `Account::dispute` called with the dispute
transaction's own unwrapped amount. -/
def process_dispute (eng : Engine) (account : Account) (t : Transaction) :
    PResult :=
  match alookup eng.ledger t.tx with
  | none => .err (.Transaction (.MissingDispute t.tx)) eng account
  | some past =>
    if past.variant = .Deposit then
      .err (.Transaction (.OnlyDepositsCanBeDisputed t.tx)) eng account
    else if past.client ≠ t.client then
      .err (.Transaction (.WrongClient t.tx past.client t.client)) eng account
    else
      match t.amount with
      | none => .panicked
      | some funds =>
        match account.dispute funds t.tx with
        | (a1, some e) => .err e eng a1
        | (a1, none) => .ok eng a1

/-- Embeds `Engine::process_resolution`. -/
def process_resolution (eng : Engine) (account : Account) (t : Transaction) :
    PResult :=
  match alookup eng.ledger t.tx with
  | none => .err (.Transaction (.MissingDispute t.tx)) eng account
  | some past =>
    if past.client ≠ t.client then
      .err (.Transaction (.WrongClient t.tx past.client t.client)) eng account
    else
      match account.resolve t.tx with
      | (a1, some e) => .err e eng a1
      | (a1, none) => .ok eng a1

/-- Embeds `Engine::process_chargeback`. -/
def process_chargeback (eng : Engine) (account : Account) (t : Transaction) :
    PResult :=
  match alookup eng.ledger t.tx with
  | none => .err (.Transaction (.MissingDispute t.tx)) eng account
  | some past =>
    if past.client ≠ t.client then
      .err (.Transaction (.WrongClient t.tx past.client t.client)) eng account
    else
      match account.chargeback t.tx with
      | (a1, some e) => .err e eng a1
      | (a1, none) => .ok eng a1

/-- Embeds `Engine::process`: validate, reject duplicates against the ledger,
then dispatch on the transaction kind. -/
def process (eng : Engine) (account : Account) (t : Transaction) : PResult :=
  match t.is_valid with
  | .error e => .err (.Transaction e) eng account
  | .ok _ =>
    if acontains eng.ledger t.tx then
      .err (.Transaction (.DuplicateFound t.tx)) eng account
    else
      match t.variant with
      | .Deposit => eng.process_deposit account t
      | .Withdrawal => eng.process_withdrawal account t
      | .Dispute => eng.process_dispute account t
      | .Resolve => eng.process_resolution account t
      | .Chargeback => eng.process_chargeback account t

end Engine

/-- Embeds the `Accounts` directory from accounts.rs. -/
structure Accounts where
  accounts : List (Client × Account)
deriving DecidableEq

namespace Accounts

/-- Embeds `Accounts::new`. -/
def new : Accounts := { accounts := [] }

/-- Read half of `Accounts::get_mut`: the stored account, or a fresh
`Account::new` when the client has none yet. -/
def get_or_create (accs : Accounts) (client : Client) : Account :=
  match alookup accs.accounts client with
  | some a => a
  | none => Account.new client

/-- Write-back half of `Accounts::get_mut`: store the (mutated) account. -/
def set (accs : Accounts) (client : Client) (a : Account) : Accounts :=
  { accounts := ainsert accs.accounts client a }

end Accounts

/-- One iteration of `Engine::process_transactions` (behaviors.rs): get or
lazily create the account, call `Engine::process`, keep the resulting account
in the directory whether the call succeeded or failed (errors are only
logged); a panic aborts the run. -/
def stepTransaction (st : Engine × Accounts) (t : Transaction) :
    Option (Engine × Accounts) :=
  let account := st.2.get_or_create t.client
  match st.1.process account t with
  | .panicked => none
  | .err _ eng1 a1 => some (eng1, st.2.set t.client a1)
  | .ok eng1 a1 => some (eng1, st.2.set t.client a1)

/-- Embeds the loop of `Engine::process_transactions` over a list of parsed
transactions. -/
def runTransactions : Engine × Accounts → List Transaction →
    Option (Engine × Accounts)
  | st, [] => some st
  | st, t :: rest =>
    match stepTransaction st t with
    | none => none
    | some st1 => runTransactions st1 rest

/-- A state of the program: reachable from a fresh engine and an empty account
directory (as in main.rs) by processing some input sequence. -/
def Reachable (st : Engine × Accounts) : Prop :=
  ∃ ts : List Transaction, runTransactions (Engine.new, Accounts.new) ts = some st

/-! ### Basic lemmas about the checked arithmetic and the map model -/

theorem Funds.MAX_pos : (0 : ℤ) < Funds.MAX := by
  unfold Funds.MAX
  omega

theorem Funds.checked_add_eq_some {a b v : Funds}
    (h : Funds.checked_add a b = some v) :
    v = a + b ∧ -Funds.MAX ≤ v ∧ v ≤ Funds.MAX := by
  unfold Funds.checked_add at h
  split at h
  · rename_i hb
    cases h
    exact ⟨rfl, hb.1, hb.2⟩
  · cases h

theorem Funds.checked_add_of_bounds {a b : Funds}
    (h1 : -Funds.MAX ≤ a + b) (h2 : a + b ≤ Funds.MAX) :
    Funds.checked_add a b = some (a + b) := by
  unfold Funds.checked_add
  exact if_pos ⟨h1, h2⟩

theorem Funds.checked_sub_eq_some {a b v : Funds}
    (h : Funds.checked_sub a b = some v) :
    v = a - b ∧ -Funds.MAX ≤ v ∧ v ≤ Funds.MAX := by
  unfold Funds.checked_sub at h
  split at h
  · rename_i hb
    cases h
    exact ⟨rfl, hb.1, hb.2⟩
  · cases h

theorem Funds.checked_sub_of_bounds {a b : Funds}
    (h1 : -Funds.MAX ≤ a - b) (h2 : a - b ≤ Funds.MAX) :
    Funds.checked_sub a b = some (a - b) := by
  unfold Funds.checked_sub
  exact if_pos ⟨h1, h2⟩

theorem alookup_of_acontains_false {α : Type} {m : List (Nat × α)} {k : Nat}
    (h : acontains m k = false) : alookup m k = none := by
  unfold acontains at h
  cases hm : alookup m k with
  | none => rfl
  | some v => rw [hm] at h; simp at h

theorem mem_aerase {α : Type} {m : List (Nat × α)} {k : Nat} {p : Nat × α}
    (h : p ∈ aerase m k) : p ∈ m := by
  induction m with
  | nil => exact absurd h (by simp [aerase])
  | cons hd tl ih =>
    unfold aerase at h
    by_cases hk : hd.1 = k
    · simp only [hk, if_pos rfl] at h
      exact List.mem_cons_of_mem _ (ih h)
    · rw [show (hd.1, hd.2) = hd from rfl] at h
      simp only [if_neg hk] at h
      rcases List.mem_cons.mp h with h1 | h1
      · exact h1 ▸ List.mem_cons_self _ _
      · exact List.mem_cons_of_mem _ (ih h1)

theorem mem_ainsert {α : Type} {m : List (Nat × α)} {k : Nat} {v : α}
    {p : Nat × α} (h : p ∈ ainsert m k v) : p = (k, v) ∨ p ∈ m := by
  unfold ainsert at h
  rcases List.mem_cons.mp h with h1 | h1
  · exact Or.inl h1
  · exact Or.inr (mem_aerase h1)

theorem alookup_aerase_none {α : Type} {m : List (Nat × α)} {k j : Nat}
    (h : alookup m j = none) : alookup (aerase m k) j = none := by
  induction m with
  | nil => exact h
  | cons hd tl ih =>
    unfold alookup at h
    by_cases hj : hd.1 = j
    · simp only [if_pos hj] at h
      exact absurd h (by simp)
    · simp only [if_neg hj] at h
      unfold aerase
      by_cases hk : hd.1 = k
      · simp only [if_pos hk]
        exact ih h
      · simp only [if_neg hk]
        unfold alookup
        simp only [if_neg hj]
        exact ih h

/-! ### Facts about `Transaction::is_valid` -/

theorem is_valid_ok_iff {t : Transaction} :
    t.is_valid = .ok () ↔
      ((t.variant = .Deposit ∨ t.variant = .Withdrawal) →
        ∃ f, t.amount = some f ∧ 0 < f) ∧
      ((t.variant = .Dispute ∨ t.variant = .Resolve ∨ t.variant = .Chargeback) →
        t.amount = none) := by
  obtain ⟨variant, client, tx, amount⟩ := t
  cases variant <;> cases amount <;>
    simp [Transaction.is_valid, Funds.ZERO]

theorem is_valid_depwd_some {t : Transaction}
    (hv : t.is_valid = .ok ())
    (hk : t.variant = .Deposit ∨ t.variant = .Withdrawal) :
    ∃ f, t.amount = some f ∧ 0 < f :=
  (is_valid_ok_iff.mp hv).1 hk

theorem is_valid_dispute_family_none {t : Transaction}
    (hv : t.is_valid = .ok ())
    (hk : t.variant = .Dispute ∨ t.variant = .Resolve ∨ t.variant = .Chargeback) :
    t.amount = none :=
  (is_valid_ok_iff.mp hv).2 hk

/-! ### Behaviour of `credit` and `debit` on accounts with no held funds -/

/-- Accounts whose dispute machinery has never fired: no held funds, no open
disputes, not locked, and `available` within the checked range. -/
def AccountUndisturbed (a : Account) : Prop :=
  a.held = 0 ∧ a.disputed_transactions = [] ∧ a.locked = false ∧
    0 ≤ a.available ∧ a.available ≤ Funds.MAX

theorem credit_of_flat {a : Account} (f : Funds)
    (hheld : a.held = 0) (hlk : a.locked = false) :
    a.credit f =
      match Funds.checked_add a.available f with
      | some v => ({ a with available := v, total := v }, none)
      | none => (a, some (.Account (.Overflow a.client))) := by
  obtain ⟨cl, av, he, tot, lk, dt⟩ := a
  simp only at hheld hlk
  subst hheld hlk
  unfold Account.credit
  simp only [Bool.false_eq_true, if_false]
  cases hc : Funds.checked_add av f with
  | none => rfl
  | some v =>
    obtain ⟨hv, hlo, hhi⟩ := Funds.checked_add_eq_some hc
    have hup : Funds.checked_add v 0 = some v := by
      have := Funds.checked_add_of_bounds (a := v) (b := 0)
        (by simpa using hlo) (by simpa using hhi)
      simpa using this
    simp only [Account.update_total, hup]

theorem debit_of_flat {a : Account} (f : Funds)
    (hheld : a.held = 0) (hlk : a.locked = false) :
    a.debit f =
      if a.available < f then (a, some (.Account (.InsufficientFunds a.client)))
      else
        match Funds.checked_sub a.available f with
        | some v => ({ a with available := v, total := v }, none)
        | none => (a, some (.Account (.Underflow a.client))) := by
  obtain ⟨cl, av, he, tot, lk, dt⟩ := a
  simp only at hheld hlk
  subst hheld hlk
  unfold Account.debit
  simp only [Bool.false_eq_true, if_false]
  by_cases hin : av < f
  · simp only [if_pos hin]
  · simp only [if_neg hin]
    cases hc : Funds.checked_sub av f with
    | none => rfl
    | some v =>
      obtain ⟨hv, hlo, hhi⟩ := Funds.checked_sub_eq_some hc
      have hup : Funds.checked_add v 0 = some v := by
        have := Funds.checked_add_of_bounds (a := v) (b := 0)
          (by simpa using hlo) (by simpa using hhi)
        simpa using this
      simp only [Account.update_total, hup]

/-! ### The engine on undisturbed accounts -/

theorem mem_of_alookup {α : Type} {m : List (Nat × α)} {k : Nat} {v : α}
    (h : alookup m k = some v) : (k, v) ∈ m := by
  induction m with
  | nil => exact absurd h (by simp [alookup])
  | cons hd tl ih =>
    unfold alookup at h
    by_cases hk : hd.1 = k
    · simp only [if_pos hk] at h
      cases h
      rw [← hk]
      exact List.mem_cons_self _ _
    · simp only [if_neg hk] at h
      exact List.mem_cons_of_mem _ (ih h)

theorem process_dispute_missing {eng : Engine} {a : Account} {t : Transaction}
    (hlk : alookup eng.ledger t.tx = none) :
    eng.process_dispute a t = .err (.Transaction (.MissingDispute t.tx)) eng a := by
  unfold Engine.process_dispute
  rw [hlk]

theorem process_resolution_missing {eng : Engine} {a : Account} {t : Transaction}
    (hlk : alookup eng.ledger t.tx = none) :
    eng.process_resolution a t =
      .err (.Transaction (.MissingDispute t.tx)) eng a := by
  unfold Engine.process_resolution
  rw [hlk]

theorem process_chargeback_missing {eng : Engine} {a : Account} {t : Transaction}
    (hlk : alookup eng.ledger t.tx = none) :
    eng.process_chargeback a t =
      .err (.Transaction (.MissingDispute t.tx)) eng a := by
  unfold Engine.process_chargeback
  rw [hlk]

theorem process_deposit_cases {eng : Engine} {a : Account} {t : Transaction}
    {f : Funds} (haf : t.amount = some f) (hf : 0 < f) (h0 : a.held = 0)
    (hd : a.disputed_transactions = []) (hl : a.locked = false)
    (hge : 0 ≤ a.available) :
    (∃ er, eng.process_deposit a t = .err er eng a) ∨
    (∃ eng1 a1, eng.process_deposit a t = .ok eng1 a1 ∧ AccountUndisturbed a1) := by
  unfold Engine.process_deposit
  simp only [haf, credit_of_flat f h0 hl]
  cases hc : Funds.checked_add a.available f with
  | none => exact Or.inl ⟨_, rfl⟩
  | some v =>
    obtain ⟨hveq, hlo, hhi⟩ := Funds.checked_add_eq_some hc
    refine Or.inr ⟨_, _, rfl, ?_, ?_, ?_, ?_, ?_⟩ <;> simp [h0, hd, hl]
    · linarith
    · exact hhi

theorem process_withdrawal_cases {eng : Engine} {a : Account} {t : Transaction}
    {f : Funds} (haf : t.amount = some f) (h0 : a.held = 0)
    (hd : a.disputed_transactions = []) (hl : a.locked = false) :
    (∃ er, eng.process_withdrawal a t = .err er eng a) ∨
    (∃ eng1 a1, eng.process_withdrawal a t = .ok eng1 a1 ∧
      AccountUndisturbed a1) := by
  unfold Engine.process_withdrawal
  simp only [haf, debit_of_flat f h0 hl]
  by_cases hin : a.available < f
  · rw [if_pos hin]
    exact Or.inl ⟨_, rfl⟩
  · rw [if_neg hin]
    cases hc : Funds.checked_sub a.available f with
    | none => exact Or.inl ⟨_, rfl⟩
    | some v =>
      obtain ⟨hveq, hlo, hhi⟩ := Funds.checked_sub_eq_some hc
      push_neg at hin
      refine Or.inr ⟨_, _, rfl, ?_, ?_, ?_, ?_, ?_⟩ <;> simp [h0, hd, hl]
      · linarith
      · exact hhi

/-- On an undisturbed account, one `Engine::process` call never panics, on
error it leaves the engine and the account exactly as they were, and on
success the account it returns is again undisturbed. -/
theorem process_cases (eng : Engine) (a : Account) (t : Transaction)
    (ha : AccountUndisturbed a) :
    (∃ er, eng.process a t = .err er eng a) ∨
    (∃ eng1 a1, eng.process a t = .ok eng1 a1 ∧ AccountUndisturbed a1) := by
  unfold Engine.process
  cases hv : t.is_valid with
  | error e => exact Or.inl ⟨.Transaction e, rfl⟩
  | ok u =>
    cases u
    by_cases hdup : acontains eng.ledger t.tx = true
    · rw [if_pos hdup]
      exact Or.inl ⟨_, rfl⟩
    · rw [if_neg hdup]
      have hdup2 : acontains eng.ledger t.tx = false := by
        revert hdup; cases acontains eng.ledger t.tx <;> simp
      have hlk : alookup eng.ledger t.tx = none :=
        alookup_of_acontains_false hdup2
      obtain ⟨h0, hd, hl, hge, hle⟩ := ha
      cases hvar : t.variant with
      | Deposit =>
        obtain ⟨f, haf, hf⟩ := is_valid_depwd_some hv (Or.inl hvar)
        exact process_deposit_cases haf hf h0 hd hl hge
      | Withdrawal =>
        obtain ⟨f, haf, hf⟩ := is_valid_depwd_some hv (Or.inr hvar)
        exact process_withdrawal_cases haf h0 hd hl
      | Dispute => exact Or.inl ⟨_, process_dispute_missing hlk⟩
      | Resolve => exact Or.inl ⟨_, process_resolution_missing hlk⟩
      | Chargeback => exact Or.inl ⟨_, process_chargeback_missing hlk⟩

/-- The per-account invariant of every state of the engine's run: no account
has held funds, open disputes, or a lock. -/
def InvState (st : Engine × Accounts) : Prop :=
  ∀ p ∈ st.2.accounts, AccountUndisturbed p.2

theorem undisturbed_new (c : Client) : AccountUndisturbed (Account.new c) :=
  ⟨rfl, rfl, rfl, le_refl _, le_of_lt Funds.MAX_pos⟩

theorem get_or_create_undisturbed {st : Engine × Accounts}
    (hI : InvState st) (c : Client) :
    AccountUndisturbed (st.2.get_or_create c) := by
  unfold Accounts.get_or_create
  cases hm : alookup st.2.accounts c with
  | none => exact undisturbed_new c
  | some a => exact hI (c, a) (mem_of_alookup hm)

theorem invState_step {st st1 : Engine × Accounts} {t : Transaction}
    (hI : InvState st) (h : stepTransaction st t = some st1) : InvState st1 := by
  simp only [stepTransaction] at h
  rcases process_cases st.1 (st.2.get_or_create t.client) t
      (get_or_create_undisturbed hI t.client) with
    ⟨er, hp⟩ | ⟨eng1, a1, hp, ha1⟩
  · rw [hp] at h
    cases h
    intro p hp2
    rcases mem_ainsert hp2 with rfl | hmem
    · exact get_or_create_undisturbed hI t.client
    · exact hI p hmem
  · rw [hp] at h
    cases h
    intro p hp2
    rcases mem_ainsert hp2 with rfl | hmem
    · exact ha1
    · exact hI p hmem

theorem invState_run {st st1 : Engine × Accounts} {ts : List Transaction}
    (hI : InvState st) (h : runTransactions st ts = some st1) : InvState st1 := by
  induction ts generalizing st with
  | nil =>
    unfold runTransactions at h
    cases h
    exact hI
  | cons t rest ih =>
    unfold runTransactions at h
    cases hs : stepTransaction st t with
    | none => rw [hs] at h; cases h
    | some st2 =>
      rw [hs] at h
      exact ih (invState_step hI hs) h

theorem reachable_invState {st : Engine × Accounts} (h : Reachable st) :
    InvState st := by
  obtain ⟨ts, hts⟩ := h
  exact invState_run (by intro p hp; simp [Accounts.new] at hp) hts

/-! ### What each successful account operation does to the balance equation -/

theorem update_total_ok {a a2 : Account} (h : a.update_total = .ok a2) :
    a2.total = a2.available + a2.held ∧ a2.available = a.available ∧
      a2.held = a.held ∧ a2.locked = a.locked ∧
      a2.disputed_transactions = a.disputed_transactions ∧
      a2.client = a.client := by
  unfold Account.update_total at h
  cases hc : Funds.checked_add a.available a.held with
  | none => rw [hc] at h; cases h
  | some v =>
    rw [hc] at h
    cases h
    obtain ⟨hv, -, -⟩ := Funds.checked_add_eq_some hc
    exact ⟨by simp [hv], rfl, rfl, rfl, rfl, rfl⟩

theorem credit_ok_total {a a2 : Account} {f : Funds}
    (h : a.credit f = (a2, none)) :
    a2.total = a2.available + a2.held := by
  unfold Account.credit at h
  split at h
  · simp at h
  · split at h
    · rename_i v heq
      simp only [] at h
      split at h
      · rename_i a3 hup
        injection h with h1 h2
        subst h1
        exact (update_total_ok hup).1
      · simp at h
    · simp at h

theorem debit_ok_total {a a2 : Account} {f : Funds}
    (h : a.debit f = (a2, none)) :
    a2.total = a2.available + a2.held := by
  unfold Account.debit at h
  split at h
  · simp at h
  · split at h
    · simp at h
    · split at h
      · rename_i v heq
        simp only [] at h
        split at h
        · rename_i a3 hup
          injection h with h1 h2
          subst h1
          exact (update_total_ok hup).1
        · simp at h
      · simp at h

theorem dispute_ok_total {a a2 : Account} {f : Funds} {tx : Tx}
    (h : a.dispute f tx = (a2, none)) :
    a2.total = a2.available + a2.held := by
  unfold Account.dispute at h
  split at h
  · simp at h
  · split at h
    · simp at h
    · split at h
      · simp at h
      · split at h
        · simp at h
        · rename_i av heq
          simp only [] at h
          split at h
          · simp at h
          · rename_i hd2 heq2
            split at h
            · rename_i a3 hup
              injection h with h1 h2
              subst h1
              exact (update_total_ok hup).1
            · simp at h

theorem resolve_ok_total {a a2 : Account} {tx : Tx}
    (h : a.resolve tx = (a2, none)) :
    a2.total = a2.available + a2.held := by
  unfold Account.resolve at h
  split at h
  · simp at h
  · split at h
    · simp at h
    · rename_i amount heq
      split at h
      · simp at h
      · rename_i hd2 heq2
        simp only [] at h
        split at h
        · simp at h
        · rename_i av heq3
          split at h
          · simp at h
          · rename_i a3 hup
            injection h with h1 h2
            subst h1
            obtain ⟨ht, -, -, -, -, -⟩ := update_total_ok hup
            simpa using ht

theorem chargeback_ok_effects {a a2 : Account} {tx : Tx} {m : Funds}
    (hm : alookup a.disputed_transactions tx = some m)
    (h : a.chargeback tx = (a2, none)) :
    a2.total = a.total ∧ a2.available = a.available ∧ a2.held = a.held - m ∧
      a2.locked = true ∧
      a2.disputed_transactions = aerase a.disputed_transactions tx := by
  unfold Account.chargeback at h
  split at h
  · simp at h
  · rename_i amount heq
    rw [hm] at heq
    injection heq with heq
    subst heq
    split at h
    · simp at h
    · rename_i hd2 heq2
      injection h with h1 h2
      subst h1
      obtain ⟨hv, -, -⟩ := Funds.checked_sub_eq_some heq2
      exact ⟨rfl, rfl, by simp [hv], rfl, rfl⟩

/-! ### Claim theorems -/

/-- C1 counterexample: credit 15, dispute 10 of tx 1, then chargeback tx 1 all
succeed, yet afterwards total = 15 while available + held = 5 + 0 — the
equation total = available + held does not survive a successful chargeback,
because `Account::chargeback` never recomputes `total`. -/
theorem claim_C1_counterexample :
    ((Account.new 1).credit 15).2 = none ∧
    (((Account.new 1).credit 15).1.dispute 10 1).2 = none ∧
    ((((Account.new 1).credit 15).1.dispute 10 1).1.chargeback 1).2 = none ∧
    ¬(((((Account.new 1).credit 15).1.dispute 10 1).1.chargeback 1).1.total =
        ((((Account.new 1).credit 15).1.dispute 10 1).1.chargeback 1).1.available +
        ((((Account.new 1).credit 15).1.dispute 10 1).1.chargeback 1).1.held) := by
  refine ⟨by decide, by decide, by decide, by decide⟩

/-- C1 (amended): after every successful credit, debit, dispute and resolve
the account satisfies total = available + held exactly (each of these ends by
recomputing `total`); a successful chargeback instead leaves `total` and
`available` unchanged and only removes the disputed amount from `held`, so the
equation fails after any chargeback of a nonzero disputed amount. -/
theorem claim_C1_balance_equation_amended :
    (∀ (a a2 : Account) (f : Funds), a.credit f = (a2, none) →
      a2.total = a2.available + a2.held) ∧
    (∀ (a a2 : Account) (f : Funds), a.debit f = (a2, none) →
      a2.total = a2.available + a2.held) ∧
    (∀ (a a2 : Account) (f : Funds) (tx : Tx), a.dispute f tx = (a2, none) →
      a2.total = a2.available + a2.held) ∧
    (∀ (a a2 : Account) (tx : Tx), a.resolve tx = (a2, none) →
      a2.total = a2.available + a2.held) ∧
    (∀ (a a2 : Account) (tx : Tx) (m : Funds),
      alookup a.disputed_transactions tx = some m →
      a.chargeback tx = (a2, none) →
      a2.total = a.total ∧ a2.available = a.available ∧ a2.held = a.held - m) := by
  refine ⟨fun a a2 f h => credit_ok_total h,
    fun a a2 f h => debit_ok_total h,
    fun a a2 f tx h => dispute_ok_total h,
    fun a a2 tx h => resolve_ok_total h,
    fun a a2 tx m hm h => ?_⟩
  obtain ⟨h1, h2, h3, -, -⟩ := chargeback_ok_effects hm h
  exact ⟨h1, h2, h3⟩

/-- Witness for C1 (amended): the credit clause applied to a fresh account
credited with 10. -/
theorem claim_C1_balance_equation_amended_witness :
    (Account.new 1).credit 10 =
      (⟨1, 10, 0, 10, false, []⟩, none) ∧
    (⟨1, 10, 0, 10, false, []⟩ : Account).total =
      (⟨1, 10, 0, 10, false, []⟩ : Account).available +
        (⟨1, 10, 0, 10, false, []⟩ : Account).held :=
  ⟨by decide,
    claim_C1_balance_equation_amended.1 (Account.new 1) ⟨1, 10, 0, 10, false, []⟩
      10 (by decide)⟩

/-- C2 (code bug): processing deposit(1,1,10); dispute(1,1); resolve(1,1) on a
fresh engine: the deposit succeeds, but the dispute and the resolve are both
rejected as duplicates of tx 1, because the engine runs its ledger duplicate
check for every transaction kind; and even past that check, process_dispute
rejects a dispute whose referenced transaction is a Deposit. The scenario
cannot succeed at every step. -/
theorem claim_C2_scenario4_rejected :
    stepTransaction (Engine.new, Accounts.new) ⟨.Deposit, 1, 1, some 10⟩ =
      some (⟨[(1, ⟨.Deposit, 1, 1, some 10⟩)]⟩,
        ⟨[(1, ⟨1, 10, 0, 10, false, []⟩)]⟩) ∧
    (⟨[(1, ⟨.Deposit, 1, 1, some 10⟩)]⟩ : Engine).process
        (⟨1, 10, 0, 10, false, []⟩ : Account) ⟨.Dispute, 1, 1, none⟩ =
      .err (.Transaction (.DuplicateFound 1)) ⟨[(1, ⟨.Deposit, 1, 1, some 10⟩)]⟩
        (⟨1, 10, 0, 10, false, []⟩ : Account) ∧
    (⟨[(1, ⟨.Deposit, 1, 1, some 10⟩)]⟩ : Engine).process
        (⟨1, 10, 0, 10, false, []⟩ : Account) ⟨.Resolve, 1, 1, none⟩ =
      .err (.Transaction (.DuplicateFound 1)) ⟨[(1, ⟨.Deposit, 1, 1, some 10⟩)]⟩
        (⟨1, 10, 0, 10, false, []⟩ : Account) ∧
    Engine.process_dispute ⟨[(1, ⟨.Deposit, 1, 1, some 10⟩)]⟩
        (⟨1, 10, 0, 10, false, []⟩ : Account) ⟨.Dispute, 1, 1, none⟩ =
      .err (.Transaction (.OnlyDepositsCanBeDisputed 1))
        ⟨[(1, ⟨.Deposit, 1, 1, some 10⟩)]⟩ (⟨1, 10, 0, 10, false, []⟩ : Account) := by
  refine ⟨by decide, by decide, by decide, by decide⟩

/-- C3 counterexample: a Deposit with a missing amount whose tx-id 1 is
already in the ledger is rejected with MissingAmount, not DuplicateFound —
validation runs before the duplicate check. -/
theorem claim_C3_counterexample :
    (⟨[(1, ⟨.Deposit, 1, 1, some 10⟩)]⟩ : Engine).process (Account.new 1)
        ⟨.Deposit, 1, 1, none⟩ =
      .err (.Transaction (.MissingAmount 1)) ⟨[(1, ⟨.Deposit, 1, 1, some 10⟩)]⟩
        (Account.new 1) ∧
    Error.Transaction (.MissingAmount 1) ≠
      Error.Transaction (.DuplicateFound 1) := by
  refine ⟨by decide, by decide⟩

/-- C3 (amended): every transaction that passes shape validation and whose
tx-id is already a key of the ledger is rejected with DuplicateFound before
any dispatch, with the engine and the account unchanged. -/
theorem claim_C3_duplicate_reject_amended (eng : Engine) (a : Account)
    (t : Transaction) (hv : t.is_valid = .ok ())
    (hdup : acontains eng.ledger t.tx = true) :
    eng.process a t = .err (.Transaction (.DuplicateFound t.tx)) eng a := by
  unfold Engine.process
  simp only [hv]
  rw [if_pos hdup]

/-- Witness for C3 (amended): a second deposit reusing tx 1. -/
theorem claim_C3_duplicate_reject_amended_witness :
    (⟨.Deposit, 1, 1, some 5⟩ : Transaction).is_valid = .ok () ∧
    acontains (⟨[(1, ⟨.Deposit, 1, 1, some 10⟩)]⟩ : Engine).ledger 1 = true ∧
    (⟨[(1, ⟨.Deposit, 1, 1, some 10⟩)]⟩ : Engine).process (Account.new 1)
        ⟨.Deposit, 1, 1, some 5⟩ =
      .err (.Transaction (.DuplicateFound 1)) ⟨[(1, ⟨.Deposit, 1, 1, some 10⟩)]⟩
        (Account.new 1) :=
  ⟨rfl, by decide,
    claim_C3_duplicate_reject_amended ⟨[(1, ⟨.Deposit, 1, 1, some 10⟩)]⟩
      (Account.new 1) ⟨.Deposit, 1, 1, some 5⟩ rfl (by decide)⟩


/-- C4 counterexample: a Dispute carrying an amount, with its tx-id absent
from the ledger, is rejected with AmountPresent — not with MissingDispute as
the claim's error dichotomy predicts (and not with DuplicateFound either). -/
theorem claim_C4_counterexample :
    Engine.new.process (Account.new 1) ⟨.Dispute, 1, 5, some 1⟩ =
      .err (.Transaction (.AmountPresent 5)) Engine.new (Account.new 1) ∧
    Error.Transaction (.AmountPresent 5) ≠
      Error.Transaction (.MissingDispute 5) ∧
    Error.Transaction (.AmountPresent 5) ≠
      Error.Transaction (.DuplicateFound 5) := by
  refine ⟨by decide, by decide, by decide⟩

/-- C4 (amended): every Dispute, Resolve and Chargeback transaction fed to
`Engine::process` is rejected — with AmountPresent when it carries an amount,
else with DuplicateFound when its tx-id is in the ledger, else with
MissingDispute — leaving the engine and account untouched; consequently in
every reachable state every account has no held funds, an empty open-dispute
map, and an unlocked account. -/
theorem claim_C4_dispute_family_rejected_amended :
    (∀ st : Engine × Accounts, Reachable st → ∀ p ∈ st.2.accounts,
      p.2.held = 0 ∧ p.2.disputed_transactions = [] ∧ p.2.locked = false) ∧
    (∀ (eng : Engine) (a : Account) (t : Transaction),
      (t.variant = .Dispute ∨ t.variant = .Resolve ∨ t.variant = .Chargeback) →
      eng.process a t =
        if t.amount ≠ none then .err (.Transaction (.AmountPresent t.tx)) eng a
        else if acontains eng.ledger t.tx then
          .err (.Transaction (.DuplicateFound t.tx)) eng a
        else .err (.Transaction (.MissingDispute t.tx)) eng a) := by
  constructor
  · intro st hr p hp
    obtain ⟨h0, hd, hl, -, -⟩ := reachable_invState hr p hp
    exact ⟨h0, hd, hl⟩
  · intro eng a t hk
    have hvariants : ¬(t.variant = .Deposit ∨ t.variant = .Withdrawal) := by
      rcases hk with h | h | h <;> rw [h] <;> simp
    by_cases ham : t.amount = none
    · have hv : t.is_valid = .ok () := by
        unfold Transaction.is_valid
        rw [if_neg (fun hcon => hvariants hcon.1),
          if_neg (fun hcon => hcon.2 ham), ham]
      rw [if_neg (by simp [ham])]
      by_cases hdup : acontains eng.ledger t.tx = true
      · rw [if_pos hdup]
        unfold Engine.process
        simp only [hv]
        rw [if_pos hdup]
      · rw [if_neg hdup]
        have hlk : alookup eng.ledger t.tx = none := by
          refine alookup_of_acontains_false ?_
          revert hdup; cases acontains eng.ledger t.tx <;> simp
        unfold Engine.process
        simp only [hv]
        rw [if_neg hdup]
        rcases hk with h | h | h <;> rw [h]
        · exact process_dispute_missing hlk
        · exact process_resolution_missing hlk
        · exact process_chargeback_missing hlk
    · have hv : t.is_valid = .error (.AmountPresent t.tx) := by
        unfold Transaction.is_valid
        rw [if_neg (fun hcon => hvariants hcon.1), if_pos ⟨hk, ham⟩]
      rw [if_pos ham]
      unfold Engine.process
      simp only [hv]

/-- Witness for C4 (amended): both clauses instantiated — the empty run is
reachable, and a well-formed dispute for an unknown tx 5 on a fresh engine is
rejected with MissingDispute. -/
theorem claim_C4_dispute_family_rejected_amended_witness :
    Reachable (Engine.new, Accounts.new) ∧
    Engine.new.process (Account.new 1) ⟨.Dispute, 1, 5, none⟩ =
      .err (.Transaction (.MissingDispute 5)) Engine.new (Account.new 1) :=
  ⟨⟨[], rfl⟩,
    (claim_C4_dispute_family_rejected_amended.2 Engine.new (Account.new 1)
      ⟨.Dispute, 1, 5, none⟩ (Or.inl rfl)).trans (by decide)⟩

/-- C5 (code bug): with a withdrawal of 10 recorded at tx 7, a dispute of
tx 7 that passes the ledger, kind and client checks does not use the ledger's
recorded amount: a validated dispute (amount absent) panics on the amount
unwrap, and a dispute smuggling its own amount 3 moves 3 — not the recorded
10 — into held funds. -/
theorem claim_C5_dispute_amount_from_request :
    Engine.process_dispute ⟨[(7, ⟨.Withdrawal, 1, 7, some 10⟩)]⟩ (Account.new 1)
        ⟨.Dispute, 1, 7, none⟩ = .panicked ∧
    Engine.process_dispute ⟨[(7, ⟨.Withdrawal, 1, 7, some 10⟩)]⟩
        (⟨1, 20, 0, 20, false, []⟩ : Account) ⟨.Dispute, 1, 7, some 3⟩ =
      .ok ⟨[(7, ⟨.Withdrawal, 1, 7, some 10⟩)]⟩
        (⟨1, 17, 3, 20, false, [(7, 3)]⟩ : Account) := by
  refine ⟨by decide, by decide⟩

/-- C6: whenever the ledger lookup of a dispute succeeds and the referenced
transaction's kind is Deposit, `process_dispute` rejects it with
OnlyDepositsCanBeDisputed, leaving engine and account unchanged. -/
theorem claim_C6_only_deposits_check (eng : Engine) (a : Account)
    (t past : Transaction) (hlk : alookup eng.ledger t.tx = some past)
    (hdep : past.variant = .Deposit) :
    eng.process_dispute a t =
      .err (.Transaction (.OnlyDepositsCanBeDisputed t.tx)) eng a := by
  unfold Engine.process_dispute
  simp only [hlk]
  rw [if_pos hdep]

/-- Witness for C6: disputing the recorded deposit tx 1. -/
theorem claim_C6_only_deposits_check_witness :
    alookup (⟨[(1, ⟨.Deposit, 1, 1, some 10⟩)]⟩ : Engine).ledger 1 =
      some ⟨.Deposit, 1, 1, some 10⟩ ∧
    Engine.process_dispute ⟨[(1, ⟨.Deposit, 1, 1, some 10⟩)]⟩ (Account.new 1)
        ⟨.Dispute, 1, 1, none⟩ =
      .err (.Transaction (.OnlyDepositsCanBeDisputed 1))
        ⟨[(1, ⟨.Deposit, 1, 1, some 10⟩)]⟩ (Account.new 1) :=
  ⟨by decide,
    claim_C6_only_deposits_check ⟨[(1, ⟨.Deposit, 1, 1, some 10⟩)]⟩
      (Account.new 1) ⟨.Dispute, 1, 1, none⟩ ⟨.Deposit, 1, 1, some 10⟩
      (by decide) rfl⟩


/-- C7: in every reachable state of the run, whenever `Engine::process`
returns an error on the transaction's account, the ledger and that account
are exactly what they were before the call (and no other account is touched,
since `process` only ever receives the transaction's own account). -/
theorem claim_C7_error_atomicity (st : Engine × Accounts) (t : Transaction)
    (er : Error) (eng2 : Engine) (a2 : Account) (hr : Reachable st)
    (h : st.1.process (st.2.get_or_create t.client) t = .err er eng2 a2) :
    eng2 = st.1 ∧ a2 = st.2.get_or_create t.client := by
  rcases process_cases st.1 (st.2.get_or_create t.client) t
      (get_or_create_undisturbed (reachable_invState hr) t.client) with
    ⟨er2, hp⟩ | ⟨eng3, a3, hp, -⟩
  · rw [h] at hp
    injection hp with h1 h2 h3
    exact ⟨h2, h3⟩
  · rw [h] at hp
    cases hp

/-- Witness for C7: the empty run is reachable, and a dispute of the unknown
tx 99 errors with the state unchanged. -/
theorem claim_C7_error_atomicity_witness :
    Reachable (Engine.new, Accounts.new) ∧
    Engine.new.process (Accounts.new.get_or_create 1) ⟨.Dispute, 1, 99, none⟩ =
      .err (.Transaction (.MissingDispute 99)) Engine.new (Account.new 1) ∧
    (Engine.new = Engine.new ∧ Account.new 1 = Accounts.new.get_or_create 1) :=
  ⟨⟨[], rfl⟩, by decide,
    claim_C7_error_atomicity (Engine.new, Accounts.new) ⟨.Dispute, 1, 99, none⟩
      (.Transaction (.MissingDispute 99)) Engine.new (Account.new 1) ⟨[], rfl⟩
      (by decide)⟩

/-- C8: on a locked account, credit, debit, dispute and resolve all fail with
AccountLocked and return the account unchanged, while chargeback ignores the
lock: it still fails with MissingDispute when no dispute is open for the tx,
and still performs its effects (release held, set locked, drop the dispute)
when one is. -/
theorem claim_C8_lock_gating (a : Account) (hlk : a.locked = true) :
    (∀ f, a.credit f = (a, some (.Account (.AccountLocked a.client)))) ∧
    (∀ f, a.debit f = (a, some (.Account (.AccountLocked a.client)))) ∧
    (∀ f tx, a.dispute f tx = (a, some (.Account (.AccountLocked a.client)))) ∧
    (∀ tx, a.resolve tx = (a, some (.Account (.AccountLocked a.client)))) ∧
    (∀ tx, alookup a.disputed_transactions tx = none →
      a.chargeback tx = (a, some (.Transaction (.MissingDispute tx)))) ∧
    (∀ tx m h2, alookup a.disputed_transactions tx = some m →
      Funds.checked_sub a.held m = some h2 →
      a.chargeback tx =
        (⟨a.client, a.available, h2, a.total, true,
            aerase a.disputed_transactions tx⟩,
          none)) := by
  refine ⟨fun f => ?_, fun f => ?_, fun f tx => ?_, fun tx => ?_,
    fun tx hm => ?_, fun tx m h2 hm hs => ?_⟩
  · unfold Account.credit
    rw [if_pos hlk]
  · unfold Account.debit
    rw [if_pos hlk]
  · unfold Account.dispute
    rw [if_pos hlk]
  · unfold Account.resolve
    rw [if_pos hlk]
  · unfold Account.chargeback
    simp only [hm]
  · unfold Account.chargeback
    simp only [hm, hs]

/-- Witness for C8: a locked account with an open dispute — credit fails with
AccountLocked while chargeback still fires. -/
theorem claim_C8_lock_gating_witness :
    (⟨1, 3, 5, 8, true, [(2, 5)]⟩ : Account).locked = true ∧
    (⟨1, 3, 5, 8, true, [(2, 5)]⟩ : Account).credit 5 =
      (⟨1, 3, 5, 8, true, [(2, 5)]⟩, some (.Account (.AccountLocked 1))) :=
  ⟨rfl, (claim_C8_lock_gating ⟨1, 3, 5, 8, true, [(2, 5)]⟩ rfl).1 5⟩

/-- C9: the locked flag is monotonic — for every account operation and every
outcome, an account that was locked before the call is still locked in the
state the call leaves behind. -/
theorem claim_C9_locked_monotonic (a : Account) (f : Funds) (tx : Tx)
    (hlk : a.locked = true) :
    (a.credit f).1.locked = true ∧ (a.debit f).1.locked = true ∧
    (a.dispute f tx).1.locked = true ∧ (a.resolve tx).1.locked = true ∧
    (a.chargeback tx).1.locked = true := by
  refine ⟨?_, ?_, ?_, ?_, ?_⟩
  · unfold Account.credit
    rw [if_pos hlk]
    exact hlk
  · unfold Account.debit
    rw [if_pos hlk]
    exact hlk
  · unfold Account.dispute
    rw [if_pos hlk]
    exact hlk
  · unfold Account.resolve
    rw [if_pos hlk]
    exact hlk
  · unfold Account.chargeback
    cases hm : alookup a.disputed_transactions tx with
    | none =>
      simp only [hm]
      exact hlk
    | some m =>
      simp only [hm]
      cases hs : Funds.checked_sub a.held m with
      | none =>
        simp only [hs]
        exact hlk
      | some h2 =>
        simp only [hs]

/-- Witness for C9: the chargeback clause on a locked account with an open
dispute. -/
theorem claim_C9_locked_monotonic_witness :
    (⟨1, 0, 5, 5, true, [(1, 5)]⟩ : Account).locked = true ∧
    ((⟨1, 0, 5, 5, true, [(1, 5)]⟩ : Account).chargeback 1).1.locked = true :=
  ⟨rfl, (claim_C9_locked_monotonic ⟨1, 0, 5, 5, true, [(1, 5)]⟩ 0 1 rfl).2.2.2.2⟩

/-- C10: for every strictly positive in-range amount A, depositing A under a
fresh tx-id and then withdrawing A under a different fresh tx-id, on a fresh
account, succeeds at both steps and leaves available = held = total = 0 and
the account unlocked. -/
theorem claim_C10_round_trip (A : Funds) (c : Client) (t1 t2 : Tx)
    (eng : Engine) (hA : 0 < A) (hMax : A ≤ Funds.MAX) (hne : t1 ≠ t2)
    (h1 : acontains eng.ledger t1 = false)
    (h2 : acontains eng.ledger t2 = false) :
    ∃ eng1 a1 eng2 a2,
      eng.process (Account.new c) ⟨.Deposit, c, t1, some A⟩ = .ok eng1 a1 ∧
      eng1.process a1 ⟨.Withdrawal, c, t2, some A⟩ = .ok eng2 a2 ∧
      a2.available = 0 ∧ a2.held = 0 ∧ a2.total = 0 ∧ a2.locked = false := by
  have hmax0 : (0 : ℤ) < Funds.MAX := Funds.MAX_pos
  have hA0 : ¬(A ≤ 0) := not_le.mpr hA
  have hnew : Account.new c = ⟨c, 0, 0, 0, false, []⟩ := rfl
  have hv1 : (⟨.Deposit, c, t1, some A⟩ : Transaction).is_valid = .ok () := by
    simp [Transaction.is_valid, Funds.ZERO, hA0]
  have hv2 : (⟨.Withdrawal, c, t2, some A⟩ : Transaction).is_valid = .ok () := by
    simp [Transaction.is_valid, Funds.ZERO, hA0]
  have hd1 : ¬(acontains eng.ledger t1 = true) := by simp [h1]
  have hca : Funds.checked_add 0 A = some A := by
    have := Funds.checked_add_of_bounds (a := 0) (b := A) (by linarith)
      (by linarith)
    simpa using this
  have hstep1 : eng.process (Account.new c) ⟨.Deposit, c, t1, some A⟩ =
      .ok ⟨ainsert eng.ledger t1 ⟨.Deposit, c, t1, some A⟩⟩
        ⟨c, A, 0, A, false, []⟩ := by
    unfold Engine.process
    simp only [hv1]
    rw [if_neg hd1]
    unfold Engine.process_deposit
    rw [hnew]
    simp only [credit_of_flat (a := (⟨c, 0, 0, 0, false, []⟩ : Account)) A rfl
      rfl, hca]
  have hd2a : alookup (ainsert eng.ledger t1 ⟨.Deposit, c, t1, some A⟩) t2 =
      none := by
    unfold ainsert alookup
    rw [if_neg hne]
    exact alookup_aerase_none (alookup_of_acontains_false h2)
  have hd2 : ¬(acontains
      (⟨ainsert eng.ledger t1 ⟨.Deposit, c, t1, some A⟩⟩ : Engine).ledger t2 =
        true) := by
    simp [acontains, hd2a]
  have hcs : Funds.checked_sub A A = some 0 := by
    have := Funds.checked_sub_of_bounds (a := A) (b := A) (by linarith)
      (by linarith)
    simpa using this
  have hstep2 : (⟨ainsert eng.ledger t1 ⟨.Deposit, c, t1, some A⟩⟩ :
      Engine).process (⟨c, A, 0, A, false, []⟩ : Account)
        ⟨.Withdrawal, c, t2, some A⟩ =
      .ok ⟨ainsert (ainsert eng.ledger t1 ⟨.Deposit, c, t1, some A⟩) t2
          ⟨.Withdrawal, c, t2, some A⟩⟩ ⟨c, 0, 0, 0, false, []⟩ := by
    unfold Engine.process
    simp only [hv2]
    rw [if_neg hd2]
    unfold Engine.process_withdrawal
    simp only [debit_of_flat (a := (⟨c, A, 0, A, false, []⟩ : Account)) A rfl
      rfl, hcs, lt_self_iff_false, if_false]
  exact ⟨_, _, _, _, hstep1, hstep2, rfl, rfl, rfl, rfl⟩

/-- Witness for C10: A = 10, tx-ids 1 and 2, fresh engine. -/
theorem claim_C10_round_trip_witness :
    (0 : Funds) < 10 ∧ (10 : Funds) ≤ Funds.MAX ∧ (1 : Tx) ≠ 2 ∧
    acontains Engine.new.ledger 1 = false ∧
    acontains Engine.new.ledger 2 = false ∧
    ∃ eng1 a1 eng2 a2,
      Engine.new.process (Account.new 1) ⟨.Deposit, 1, 1, some 10⟩ =
        .ok eng1 a1 ∧
      eng1.process a1 ⟨.Withdrawal, 1, 2, some 10⟩ = .ok eng2 a2 ∧
      a2.available = 0 ∧ a2.held = 0 ∧ a2.total = 0 ∧ a2.locked = false :=
  ⟨by decide, by decide, by decide, rfl, rfl,
    claim_C10_round_trip 10 1 1 2 Engine.new (by decide) (by decide)
      (by decide) rfl rfl⟩


end TxEngine
